import Mathlib

/-!
Verification of the Kasstyle invoicing repository.

Shallow embedding conventions:
* JavaScript numbers are modelled as `JsNum`: either an exact rational
  (`ℚ`, standing for a finite double) or one of the non-finite values
  `nan`, `inf`, `negInf`.  Typed interior arithmetic (invoice totals,
  logistics formulas) is modelled directly over `ℚ`, matching the
  TypeScript `number` annotations in `types.ts`; the non-finite values
  only matter at the coercion boundary (`safeParseFloat`).
* Loosely-typed inputs reaching `safeParseFloat` are modelled as `JsVal`
  (a number, a string, `null`, or `undefined`).
* `parseFloat(x.toFixed(2))` is modelled by `round2` (round half towards
  `+∞` at two decimals, the `Number.prototype.toFixed` rounding rule).
* The mutable module-level cache of `src/services/storage.ts` is modelled
  as an explicit `State` record; each mutating operation is a function
  from the old state (plus the wall-clock string and, where the code calls
  `generateId()`, the freshly generated id) to the new state.
-/

/-- A JavaScript number: a finite double (modelled exactly as a rational)
or one of the three non-finite values. -/
inductive JsNum where
  | num (q : ℚ)
  | nan
  | inf
  | negInf
deriving DecidableEq, Repr

/-- Finiteness predicate on JavaScript numbers (`Number.isFinite`). -/
def JsNum.isFinite : JsNum → Bool
  | .num _ => true
  | _ => false

/-- JavaScript truthiness of a number: `0` and `NaN` are falsy,
everything else (including the infinities) is truthy. -/
def JsNum.truthy : JsNum → Bool
  | .num q => q != 0
  | .nan => false
  | .inf => true
  | .negInf => true

/-- A loosely-typed JavaScript value as it can reach `safeParseFloat`:
a number, a string, `null` or `undefined`. -/
inductive JsVal where
  | num (n : JsNum)
  | str (s : String)
  | nullV
  | undef
deriving DecidableEq, Repr

/-- Drop leading `StrWhiteSpace` characters, as `parseFloat` does. -/
def skipWs : List Char → List Char
  | c :: cs =>
      if c = ' ' ∨ c = '\t' ∨ c = '\n' ∨ c = '\r' ∨ c = '\x0b' ∨ c = '\x0c' then
        skipWs cs
      else c :: cs
  | [] => []

/-- Split the longest run of decimal digits off the front of a character list. -/
def takeDigits : List Char → List Char × List Char
  | c :: cs =>
      if c.isDigit then
        let p := takeDigits cs
        (c :: p.1, p.2)
      else ([], c :: cs)
  | [] => ([], [])

/-- Numeric value of a digit run. -/
def digitsVal (ds : List Char) : ℕ :=
  ds.foldl (fun a c => 10 * a + (c.toNat - 48)) 0

/-- Does the second list start with the first one? -/
def startsWithChars : List Char → List Char → Bool
  | [], _ => true
  | _ :: _, [] => false
  | p :: ps, c :: cs => p = c && startsWithChars ps cs

/-- Symbolic outcome of the `parseFloat` grammar: no valid prefix
(`NaN`), a signed `Infinity`, or a signed decimal literal given by its
concatenated mantissa digits, the number of fraction digits, and the
exponent. -/
inductive ParseOut where
  | nanOut
  | infOut (neg : Bool)
  | numOut (neg : Bool) (mant fracLen : ℕ) (exp : ℤ)
deriving DecidableEq, Repr

/-- Parse the longest unsigned decimal-literal prefix after the sign:
digits, optional decimal point with more digits, optional exponent (the
exponent is only consumed when at least one digit follows `e`/`E`,
matching the longest-valid-prefix rule).  Returns `none` when not even
one digit is present. -/
def parseDecimalParts (cs : List Char) : Option (ℕ × ℕ × ℤ) :=
  let ipr := takeDigits cs
  let fpr : List Char × List Char :=
    match ipr.2 with
    | '.' :: rest => takeDigits rest
    | _ => ([], ipr.2)
  if ipr.1 = [] ∧ fpr.1 = [] then none
  else
    let expPart : ℤ :=
      match fpr.2 with
      | e :: rest =>
          if e = 'e' ∨ e = 'E' then
            match rest with
            | '+' :: ds => (if (takeDigits ds).1 = [] then 0 else (digitsVal (takeDigits ds).1 : ℤ))
            | '-' :: ds => (if (takeDigits ds).1 = [] then 0 else -(digitsVal (takeDigits ds).1 : ℤ))
            | ds => (if (takeDigits ds).1 = [] then 0 else (digitsVal (takeDigits ds).1 : ℤ))
          else 0
      | [] => 0
    some (digitsVal (ipr.1 ++ fpr.1), fpr.1.length, expPart)

/-- The symbol-level part of ECMAScript `parseFloat`: skip leading
whitespace, read an optional sign, then either `Infinity` or the longest
decimal-literal prefix. -/
def parseFloatSym (s : String) : ParseOut :=
  let cs := skipWs s.data
  let sgned : Bool × List Char :=
    match cs with
    | '-' :: r => (true, r)
    | '+' :: r => (false, r)
    | r => (false, r)
  if startsWithChars "Infinity".data sgned.2 then ParseOut.infOut sgned.1
  else
    match parseDecimalParts sgned.2 with
    | none => ParseOut.nanOut
    | some p => ParseOut.numOut sgned.1 p.1 p.2.1 p.2.2

/-- Numeric value of a symbolic parse outcome.  Finite results are kept
exact (rationals) rather than rounded to binary doubles. -/
def outToNum : ParseOut → JsNum
  | ParseOut.nanOut => JsNum.nan
  | ParseOut.infOut false => JsNum.inf
  | ParseOut.infOut true => JsNum.negInf
  | ParseOut.numOut neg m fl e =>
      JsNum.num ((if neg then -1 else 1) * ((m : ℚ) / 10 ^ fl * 10 ^ e))

/-- ECMAScript `parseFloat`, as a JavaScript number. -/
def jsParseFloat (s : String) : JsNum :=
  outToNum (parseFloatSym s)

/-- JavaScript `String.prototype.replace(',', '.')`: replace only the
first comma by a period. -/
def replaceFirstComma : List Char → List Char
  | [] => []
  | c :: cs => if c = ',' then '.' :: cs else c :: replaceFirstComma cs

/-- The string actually handed to `parseFloat` inside `safeParseFloat`. -/
def commaToDot (s : String) : String :=
  String.mk (replaceFirstComma s.data)

/-- `safeParseFloat` from `src/services/storage.ts` (lines 9–17):
a number is returned as-is; `undefined`, `null` and the empty string give
`0`; otherwise the value is stringified, the first comma is turned into a
period, and the `parseFloat` result is used with `NaN` mapped to `0`. -/
def safeParseFloat : JsVal → JsNum
  | JsVal.num n => n
  | JsVal.undef => JsNum.num 0
  | JsVal.nullV => JsNum.num 0
  | JsVal.str s =>
      if s = "" then JsNum.num 0
      else
        -- `isNaN(num) ? 0 : num`
        match jsParseFloat (commaToDot s) with
        | JsNum.nan => JsNum.num 0
        | JsNum.num q => JsNum.num q
        | JsNum.inf => JsNum.inf
        | JsNum.negInf => JsNum.negInf

/-- Rounding to two decimals as performed by
`parseFloat(x.toFixed(2))`: nearest multiple of `1/100`, ties towards
`+∞` (the `toFixed` tie rule "pick the larger n"). -/
def round2 (q : ℚ) : ℚ :=
  (⌊q * 100 + 1 / 2⌋ : ℚ) / 100

/-- Whether a symbolic parse outcome denotes a (signed) infinity — the
only string inputs on which `safeParseFloat` can produce a non-finite
result. -/
def ParseOut.isInf : ParseOut → Bool
  | .infOut _ => true
  | _ => false

/-! ## Data model (`types.ts`) -/

/-- Invoice status enum.  The constructor names follow the enum values
of `types.ts`: `draft` = `'Borrador'` (DRAFT), `pending` = `'Pendiente'`
(PENDING), `abonado` = `'Abonado'` (the partially-paid PARTIAL status),
`paid` = `'Pagado'` (PAID), `delivered` = `'Entregado'` (DELIVERED). -/
inductive InvoiceStatus where
  | draft
  | pending
  | abonado
  | paid
  | delivered
deriving DecidableEq, Repr

/-- Sourcing platform enum. -/
inductive Platform where
  | shein
  | amazon
  | temu
  | aliexpress
  | alibaba
  | other
deriving DecidableEq, Repr

/-- Weight unit of a line item. -/
inductive WUnit where
  | lb
  | kg
deriving DecidableEq, Repr

/-- A line item (`ProductItem` in `types.ts`).  Numeric fields are typed
`number` in the source and modelled as exact rationals. -/
structure ProductItem where
  id : String
  name : String
  quantity : ℚ
  weight : ℚ
  weightUnit : WUnit
  platform : Platform
  trackingNumber : Option String
  originalPrice : ℚ
  taxes : ℚ
  discounts : ℚ
  finalPrice : ℚ
  commission : ℚ
  isElectronics : Bool
deriving DecidableEq, Repr

/-- An invoice (`Invoice` in `types.ts`). -/
structure Invoice where
  id : String
  clientId : String
  createdAt : String
  updatedAt : String
  status : InvoiceStatus
  exchangeRate : ℚ
  items : List ProductItem
  logisticsCost : ℚ
  amountPaid : ℚ
  totalProductCost : ℚ
  totalProductSale : ℚ
  totalCommissions : ℚ
  grandTotalUsd : ℚ
deriving DecidableEq, Repr

/-- A client (`Client` in `types.ts`). -/
structure Client where
  id : String
  name : String
  email : String
  phone : String
  address : String
  notes : Option String
deriving DecidableEq, Repr

/-- An expense (`Expense` in `types.ts`).  The amount is kept as a loose
value because expense rows come back from the spreadsheet and are coerced
on read. -/
structure Expense where
  id : String
  description : String
  amount : JsVal
  category : String
  date : String
deriving DecidableEq, Repr

/-- The process-wide settings record.  Its two cells are loose values:
`init()` installs `data.settings` from the remote JSON without coercion,
so the getters re-coerce on every read. -/
structure Settings where
  exchangeRate : JsVal
  pricePerKg : JsVal
deriving DecidableEq, Repr

/-- `DEFAULT_SETTINGS` from `storage.ts`. -/
def DEFAULT_SETTINGS : Settings :=
  { exchangeRate := JsVal.num (JsNum.num (81 / 2)),       -- 40.5
    pricePerKg := JsVal.num (JsNum.num (1543 / 100)) }    -- 15.43

/-- The in-memory cache of `storage.ts`: the four module-level
collections `_clients`, `_invoices`, `_expenses`, `_settings`. -/
structure State where
  clients : List Client
  invoices : List Invoice
  expenses : List Expense
  settings : Settings
deriving DecidableEq, Repr

/-! ## The cache operations (`src/services/storage.ts`) -/

/-- JavaScript `Array.prototype.findIndex`, with `-1` rendered as
`none`. -/
def findIndex (p : α → Bool) : List α → Option ℕ
  | [] => none
  | x :: xs => if p x then some 0 else (findIndex p xs).map (· + 1)

/-- The derived-field recomputation `saveInvoice` performs before
storing (lines 161–180 of `storage.ts`).  On typed (`number`) fields
`safeParseFloat` is the identity and `x || 0` only maps `0` to `0`, so
`logisticsCost` and `amountPaid` are carried over unchanged and the three
totals are folds over the items exactly as in the source. -/
def finalizeInvoice (invoice : Invoice) (now : String) : Invoice :=
  let items := invoice.items
  let totalProductCost := items.foldl (fun acc item => acc + item.originalPrice * item.quantity) 0
  let totalProductSale := items.foldl (fun acc item => acc + item.finalPrice * item.quantity) 0
  let totalCommissions := items.foldl (fun acc item => acc + item.commission * item.quantity) 0
  { invoice with
    logisticsCost := invoice.logisticsCost
    amountPaid := invoice.amountPaid
    updatedAt := now
    totalProductCost := totalProductCost
    totalProductSale := totalProductSale
    totalCommissions := totalCommissions
    grandTotalUsd := totalProductSale + invoice.logisticsCost + totalCommissions }

/-- `saveInvoice` (lines 161–191): find the first invoice with the same
id; replace it wholly when found, otherwise append, keeping the given id
when it is truthy (non-empty) and using the freshly generated id
(`generateId()`, passed here as `fresh`) when it is the empty string; on
append `createdAt` is set to the current time `now`. -/
def saveInvoice (invs : List Invoice) (invoice : Invoice) (now fresh : String) : List Invoice :=
  match findIndex (fun i => i.id == invoice.id) invs with
  | some idx => invs.set idx (finalizeInvoice invoice now)
  | none =>
      invs ++ [{ finalizeInvoice invoice now with
                 id := if invoice.id == "" then fresh else invoice.id,
                 createdAt := now }]

/-- The entity `saveInvoice` writes into the cache (the replaced element
in the upsert case, the appended element otherwise). -/
def savedInvoice (invs : List Invoice) (invoice : Invoice) (now fresh : String) : Invoice :=
  match findIndex (fun i => i.id == invoice.id) invs with
  | some _ => finalizeInvoice invoice now
  | none =>
      { finalizeInvoice invoice now with
        id := if invoice.id == "" then fresh else invoice.id,
        createdAt := now }

/-- The per-invoice view `getInvoices` rebuilds (lines 124–159).  On the
typed model the `safeParseFloat` calls on item fields and on
`logisticsCost`/`amountPaid` are identities (see `safeParseFloat`), the
`weightLb` legacy fallback and the `weightUnit || 'lb'` default never
fire (both fields are always present), and `status || DRAFT` is the
identity; what remains is the recomputation of the four derived totals
and the exchange-rate fallback chain
`safeParseFloat(inv.exchangeRate) || _settings.exchangeRate || 1`,
whose settings operand is read here through its numeric coercion. -/
def reviveInvoice (settings : Settings) (inv : Invoice) : Invoice :=
  let items := inv.items
  let logisticsCost := inv.logisticsCost
  let exchangeRate : ℚ :=
    if inv.exchangeRate ≠ 0 then inv.exchangeRate
    else
      match safeParseFloat settings.exchangeRate with
      | JsNum.num q => if q ≠ 0 then q else 1
      | _ => 1
  let amountPaid := inv.amountPaid
  let totalProductCost := items.foldl (fun acc item => acc + item.originalPrice * item.quantity) 0
  let totalProductSale := items.foldl (fun acc item => acc + item.finalPrice * item.quantity) 0
  let totalCommissions := items.foldl (fun acc item => acc + item.commission * item.quantity) 0
  { inv with
    items := items
    exchangeRate := exchangeRate
    totalProductCost := totalProductCost
    totalProductSale := totalProductSale
    totalCommissions := totalCommissions
    logisticsCost := logisticsCost
    grandTotalUsd := totalProductSale + logisticsCost + totalCommissions
    amountPaid := amountPaid }

/-- `getInvoices` (lines 124–159): map the stored invoices through the
revived view. -/
def getInvoices (st : State) : List Invoice :=
  st.invoices.map (reviveInvoice st.settings)

/-- `updateInvoiceStatus` (lines 193–215): locate the invoice by id; if
present, force `amountPaid` to the stored `grandTotalUsd` for `PAID` or
`DELIVERED`, to `0` for `PENDING`, and keep it for any other status;
store the new status and refresh `updatedAt`.  A missing id leaves the
cache unchanged. -/
def updateInvoiceStatus (invs : List Invoice) (id : String) (status : InvoiceStatus)
    (now : String) : List Invoice :=
  match findIndex (fun i => i.id == id) invs with
  | none => invs
  | some idx =>
      match invs[idx]? with
      | none => invs
      | some inv =>
          let newAmountPaid :=
            if status = InvoiceStatus.paid ∨ status = InvoiceStatus.delivered then
              inv.grandTotalUsd
            else if status = InvoiceStatus.pending then 0
            else inv.amountPaid
          invs.set idx { inv with
                         status := status
                         amountPaid := newAmountPaid
                         updatedAt := now }

/-- JavaScript `a || b` on a number with a numeric default. -/
def jsOr (a : JsNum) (b : ℚ) : JsNum :=
  if a.truthy then a else JsNum.num b

/-- `getExchangeRate` (line 251): `safeParseFloat(_settings.exchangeRate) || 40.5`. -/
def getExchangeRate (s : Settings) : JsNum :=
  jsOr (safeParseFloat s.exchangeRate) (81 / 2)

/-- `setExchangeRate` (lines 253–257). -/
def setExchangeRate (s : Settings) (rate : ℚ) : Settings :=
  { s with exchangeRate := JsVal.num (JsNum.num rate) }

/-- `getPricePerKg` (line 259): `safeParseFloat(_settings.pricePerKg) || 15.43`. -/
def getPricePerKg (s : Settings) : JsNum :=
  jsOr (safeParseFloat s.pricePerKg) (1543 / 100)

/-- `setPricePerKg` (lines 261–265). -/
def setPricePerKg (s : Settings) (price : ℚ) : Settings :=
  { s with pricePerKg := JsVal.num (JsNum.num price) }

/-! ## `init()` and the remote pull (`storage.ts` lines 76–101) -/

/-- The decoded JSON body of a successful remote read.  Each collection
field is `none` when the corresponding JSON field fails the
`Array.isArray` check (or is absent); `settings` is `none` when falsy. -/
structure RemoteData where
  clients : Option (List Client)
  invoices : Option (List Invoice)
  expenses : Option (List Expense)
  settings : Option Settings
deriving DecidableEq, Repr

/-- Outcome of `fetch(SCRIPT_URL)` followed by `response.json()`:
`failure` covers a network error, a JSON-decode throw, and a
non-object body (on which the subsequent property accesses throw before
any assignment happens) — in every such case control jumps to the
`catch` block with nothing assigned. -/
inductive FetchResult where
  | failure
  | success (data : RemoteData)
deriving DecidableEq, Repr

/-- The cache contents `init()` installs from a successfully decoded
body: non-arrays become `[]`, expense amounts are coerced, and a falsy
`settings` falls back to `DEFAULT_SETTINGS`. -/
def decodeRemote (d : RemoteData) : State :=
  { clients := d.clients.getD []
    invoices := d.invoices.getD []
    expenses := (d.expenses.getD []).map
      (fun e => { e with amount := JsVal.num (safeParseFloat e.amount) })
    settings := d.settings.getD DEFAULT_SETTINGS }

/-- `init()`: on success replace the whole cache and notify subscribers
once; on failure log and leave everything untouched (no retry, no
partial merge).  The second component counts `notifyListeners()`
calls. -/
def init (r : FetchResult) (st : State) : State × ℕ :=
  match r with
  | FetchResult.failure => (st, 0)
  | FetchResult.success d => (decodeRemote d, 1)

/-! ## The invoice form (`src/components/InvoiceForm.tsx`) -/

/-- The structure returned by `calculateSuggestedLogistics`. -/
structure LogisticsResult where
  cost : ℚ
  totalWeight : ℚ
  weightCost : ℚ
  electronicsTax : ℚ
deriving DecidableEq, Repr

/-- `calculateSuggestedLogistics` (InvoiceForm.tsx lines 74–101): total
weight in kilograms (pounds divided by `2.20462`), weight cost at the
given price per kilogram, the 20% electronics surcharge on
`originalPrice - taxes - discounts` per unit, and every output rounded
through `parseFloat(x.toFixed(2))`; the suggested `cost` rounds the raw
(unrounded) sum. -/
def calculateSuggestedLogistics (currentItems : List ProductItem) (priceKg : ℚ) :
    LogisticsResult :=
  let totalKg := currentItems.foldl
    (fun acc item =>
      acc + (if item.weightUnit = WUnit.lb then item.weight / 2.20462 else item.weight)
              * item.quantity) 0
  let weightCost := totalKg * priceKg
  let electronicsTax := currentItems.foldl
    (fun acc item =>
      if item.isElectronics then
        acc + (item.originalPrice - item.taxes - item.discounts) * item.quantity * 0.20
      else acc) 0
  let totalCost := weightCost + electronicsTax
  { cost := round2 totalCost
    totalWeight := round2 totalKg
    weightCost := round2 weightCost
    electronicsTax := round2 electronicsTax }

/-- The slice of the invoice-form React state that the payment handlers
read and write. -/
structure FormState where
  status : InvoiceStatus
  items : List ProductItem
  logisticsCost : ℚ
  amountPaid : ℚ
deriving DecidableEq, Repr

/-- The grand total `handleAmountInput` computes from the current form
state: `parseFloat((products + logistics + commissions).toFixed(2))`. -/
def formGrandTotal (st : FormState) : ℚ :=
  let currentTotalProducts :=
    st.items.foldl (fun acc i => acc + i.finalPrice * i.quantity) 0
  let currentTotalCommissions :=
    st.items.foldl (fun acc i => acc + i.commission * i.quantity) 0
  round2 (currentTotalProducts + st.logisticsCost + currentTotalCommissions)

/-- `handleAmountInput` (InvoiceForm.tsx lines 174–196), modelled on the
already-coerced numeric amount (the surrounding
`parseFloat(val); isNaN ? 0 : num` coercion is `jsParseFloat` above):
store the new amount, then — only while the status is not Draft AND the
computed grand total is positive — derive the status: strictly partial
amounts give PARTIAL (`abonado`), zero gives PENDING, and amounts at or
above the total give PAID unless the current status is DELIVERED. -/
def handleAmountInput (st : FormState) (newAmount : ℚ) : FormState :=
  let withAmount := { st with amountPaid := newAmount }
  let currentGrandTotal := formGrandTotal st
  if st.status ≠ InvoiceStatus.draft then
    if currentGrandTotal > 0 then
      if newAmount > 0 ∧ newAmount < currentGrandTotal then
        { withAmount with status := InvoiceStatus.abonado }
      else if newAmount = 0 then
        { withAmount with status := InvoiceStatus.pending }
      else if newAmount ≥ currentGrandTotal ∧ st.status ≠ InvoiceStatus.delivered then
        { withAmount with status := InvoiceStatus.paid }
      else withAmount
    else withAmount
  else withAmount

/-! ## The dashboard aggregation (`src/components/Dashboard.tsx` lines 33–74) -/

/-- The four accumulators of the `stats` memo. -/
structure Stats where
  revenue : ℚ
  netProfit : ℚ
  pending : ℚ
  count : ℕ
deriving DecidableEq, Repr

/-- `FINANCIALLY_ACTIVE_STATUSES.includes(inv.status)`. -/
def financiallyActive (s : InvoiceStatus) : Bool :=
  s = InvoiceStatus.abonado ∨ s = InvoiceStatus.paid ∨ s = InvoiceStatus.delivered

/-- One step of the `invoices.forEach` loop in the `stats` memo: drafts
are skipped entirely; every other invoice counts and adds its remaining
balance to the outstanding debt; financially active ones additionally add
their cash to revenue and their proportional theoretical profit
(clamped at 100%) to the realized net profit. -/
def dashStep (acc : Stats) (inv : Invoice) : Stats :=
  if inv.status = InvoiceStatus.draft then acc
  else
    let grandTotal := inv.grandTotalUsd
    let amountPaid := inv.amountPaid
    let remaining := max 0 (grandTotal - amountPaid)
    let acc1 := { acc with count := acc.count + 1, pending := acc.pending + remaining }
    if financiallyActive inv.status then
      let theoreticalProfit := inv.items.foldl
        (fun a item => a + ((item.finalPrice - item.originalPrice) + item.commission) * item.quantity) 0
      let percentPaid := if grandTotal > 0 then amountPaid / grandTotal else 0
      { acc1 with
        revenue := acc1.revenue + amountPaid
        netProfit := acc1.netProfit + theoreticalProfit * min 1 percentPaid }
    else acc1

/-- The `stats` memo of the dashboard. -/
def dashboardStats (invoices : List Invoice) : Stats :=
  invoices.foldl dashStep { revenue := 0, netProfit := 0, pending := 0, count := 0 }

/-- Theoretical profit of an invoice as the dashboard computes it,
written as a plain sum over items. -/
def theoreticalProfitSpec (inv : Invoice) : ℚ :=
  (inv.items.map (fun item => ((item.finalPrice - item.originalPrice) + item.commission) * item.quantity)).sum

/-- The realized-profit contribution of one financially active invoice,
with the positivity guard the code applies before dividing. -/
def claimContribution (inv : Invoice) : ℚ :=
  theoreticalProfitSpec inv *
    (if inv.grandTotalUsd > 0 then min 1 (inv.amountPaid / inv.grandTotalUsd) else 0)

/-- The realized-profit contribution exactly as the loop body computes
it: the theoretical profit folded over the items, times the clamped
percentage paid. -/
def codeContribution (inv : Invoice) : ℚ :=
  (inv.items.foldl
      (fun a item => a + ((item.finalPrice - item.originalPrice) + item.commission) * item.quantity) 0)
    * min 1 (if inv.grandTotalUsd > 0 then inv.amountPaid / inv.grandTotalUsd else 0)

/-- The grand-total invariant of the spec, with the two sums written as
plain sums over the item list. -/
def grandTotalInvariant (inv : Invoice) : Prop :=
  inv.grandTotalUsd
    = (inv.items.map (fun item => item.finalPrice * item.quantity)).sum
      + inv.logisticsCost
      + (inv.items.map (fun item => item.commission * item.quantity)).sum

/-! ## Concrete sample data for witnesses and counterexamples -/

/-- A concrete line item: quantity 2, weight 1 kg, bought at 10, sold at
15, commission 1 (the end-to-end scenario of the spec, section 8). -/
def cItem : ProductItem :=
  { id := "it1", name := "Camisa", quantity := 2, weight := 1, weightUnit := WUnit.kg,
    platform := Platform.shein, trackingNumber := none, originalPrice := 10,
    taxes := 0, discounts := 0, finalPrice := 15, commission := 1, isElectronics := false }

/-- A concrete invoice holding `cItem`, with stale persisted totals. -/
def cInv : Invoice :=
  { id := "inv1", clientId := "c1", createdAt := "2024-01-01", updatedAt := "2024-01-01",
    status := InvoiceStatus.pending, exchangeRate := 40, items := [cItem],
    logisticsCost := 30, amountPaid := 0, totalProductCost := 0, totalProductSale := 0,
    totalCommissions := 0, grandTotalUsd := 62 }

/-- A concrete cache state holding `cInv`. -/
def cState : State :=
  { clients := [], invoices := [cInv], expenses := [], settings := DEFAULT_SETTINGS }

/-- A concrete successfully-decoded remote body. -/
def cRemote : RemoteData :=
  { clients := some [], invoices := some [cInv],
    expenses := some [{ id := "e1", description := "taxi", amount := JsVal.str "3,50",
                        category := "Transporte", date := "2024-01-02" }],
    settings := none }

/-- A non-Draft form state whose computed grand total is `0` (no items,
no logistics cost). -/
def xForm : FormState :=
  { status := InvoiceStatus.abonado, items := [], logisticsCost := 0, amountPaid := 7 }

/-- A non-Draft form state with grand total `62`. -/
def wForm : FormState :=
  { status := InvoiceStatus.pending, items := [cItem], logisticsCost := 30, amountPaid := 0 }

/-- A Delivered form state with grand total `62`. -/
def dForm : FormState :=
  { status := InvoiceStatus.delivered, items := [cItem], logisticsCost := 30, amountPaid := 62 }

/-- A line item whose theoretical profit is `100`. -/
def profitItem : ProductItem :=
  { id := "it2", name := "Reloj", quantity := 1, weight := 0, weightUnit := WUnit.kg,
    platform := Platform.amazon, trackingNumber := none, originalPrice := 0,
    taxes := 0, discounts := 0, finalPrice := 100, commission := 0, isElectronics := false }

/-- The spec's clamp example: theoretical profit 100, grand total 200,
half paid. -/
def halfPaidInv : Invoice :=
  { id := "inv2", clientId := "c1", createdAt := "2024-02-01", updatedAt := "2024-02-01",
    status := InvoiceStatus.abonado, exchangeRate := 40, items := [profitItem],
    logisticsCost := 0, amountPaid := 50, totalProductCost := 0, totalProductSale := 0,
    totalCommissions := 0, grandTotalUsd := 200 }

/-- The spec's clamp example, overpaid: `amountPaid = 300 > 200`. -/
def overPaidInv : Invoice :=
  { halfPaidInv with id := "inv3", amountPaid := 300 }

/-- A financially active invoice with a negative stored grand total
(reachable: `finalPrice` auto-derives to `originalPrice - taxes +
discounts` and can be negative). -/
def negTotalInv : Invoice :=
  { halfPaidInv with id := "inv4", grandTotalUsd := -200, amountPaid := 50 }

/-- A concrete invoice with a fresh non-empty id and its own
`createdAt`, for exercising the append branch of `saveInvoice`. -/
def cInv9 : Invoice :=
  { id := "a", clientId := "c1", createdAt := "c0", updatedAt := "c0",
    status := InvoiceStatus.draft, exchangeRate := 40, items := [],
    logisticsCost := 0, amountPaid := 0, totalProductCost := 0, totalProductSale := 0,
    totalCommissions := 0, grandTotalUsd := 0 }

/-- A settings record whose stored cells coerce to `0` ("0" and a blank
cell). -/
def sZero : Settings :=
  { exchangeRate := JsVal.str "0", pricePerKg := JsVal.undef }

/-! ## Generic helper lemmas -/

theorem foldl_add_eq_sum_map (f : α → ℚ) :
    ∀ (l : List α) (a : ℚ), l.foldl (fun acc i => acc + f i) a = a + (l.map f).sum := by
  intro l
  induction l with
  | nil => intro a; simp
  | cons x xs ih =>
      intro a
      simp only [List.foldl_cons, List.map_cons, List.sum_cons, ih]
      ring

theorem foldl_add_ite_eq_sum_filter (p : α → Bool) (f : α → ℚ) :
    ∀ (l : List α) (a : ℚ),
      l.foldl (fun acc i => if p i then acc + f i else acc) a
        = a + ((l.filter p).map f).sum := by
  intro l
  induction l with
  | nil => intro a; simp
  | cons x xs ih =>
      intro a
      by_cases hp : p x
      · simp only [List.foldl_cons, hp, if_true, List.filter_cons_of_pos hp,
          List.map_cons, List.sum_cons, ih]
        ring
      · simp only [List.foldl_cons, hp, if_false, Bool.false_eq_true,
          List.filter_cons_of_neg, ih]
        simp [hp]

theorem findIndex_eq_none (p : α → Bool) :
    ∀ l : List α, (∀ x ∈ l, p x = false) → findIndex p l = none := by
  intro l
  induction l with
  | nil => intro _; rfl
  | cons x xs ih =>
      intro h
      have hx := h x (List.mem_cons_self x xs)
      simp only [findIndex, hx, Bool.false_eq_true, if_false]
      rw [ih (fun y hy => h y (List.mem_cons_of_mem x hy))]
      rfl

theorem findIndex_lt_length (p : α → Bool) :
    ∀ (l : List α) (idx : ℕ), findIndex p l = some idx → idx < l.length := by
  intro l
  induction l with
  | nil => intro idx h; simp [findIndex] at h
  | cons x xs ih =>
      intro idx h
      simp only [findIndex] at h
      by_cases hp : p x
      · simp only [hp, if_true, Option.some.injEq] at h
        simp only [List.length_cons]
        omega
      · simp only [hp, Bool.false_eq_true, if_false, Option.map_eq_some'] at h
        obtain ⟨j, hj, rfl⟩ := h
        have := ih j hj
        simp only [List.length_cons]
        omega

theorem findIndex_first_match (p : α → Bool) :
    ∀ (l : List α), (∃ x ∈ l, p x = true) →
      ∃ idx x, findIndex p l = some idx ∧ l[idx]? = some x ∧ p x = true := by
  intro l
  induction l with
  | nil => rintro ⟨x, hx, -⟩; cases hx
  | cons y ys ih =>
      rintro ⟨x, hx, hpx⟩
      by_cases hy : p y
      · exact ⟨0, y, by simp [findIndex, hy], by simp, hy⟩
      · have hxys : x ∈ ys := by
          rcases List.mem_cons.mp hx with rfl | h
          · exact absurd hpx (by simp [hy])
          · exact h
        obtain ⟨idx, z, hfind, hget, hz⟩ := ih ⟨x, hxys, hpx⟩
        refine ⟨idx + 1, z, ?_, ?_, hz⟩
        · simp [findIndex, hy, hfind]
        · simpa using hget

theorem findIndex_append_first (p : α → Bool) (y : α) (l₂ : List α) :
    ∀ l₁ : List α, (∀ x ∈ l₁, p x = false) → p y = true →
      findIndex p (l₁ ++ y :: l₂) = some l₁.length := by
  intro l₁
  induction l₁ with
  | nil => intro _ hy; simp [findIndex, hy]
  | cons x xs ih =>
      intro h hy
      have hx := h x (List.mem_cons_self x xs)
      rw [List.cons_append]
      simp only [findIndex, hx, Bool.false_eq_true, if_false]
      rw [ih (fun z hz => h z (List.mem_cons_of_mem x hz)) hy]
      rfl

theorem set_append_singleton (b : α) :
    ∀ (l : List α) (a : α), (l ++ [a]).set l.length b = l ++ [b] := by
  intro l
  induction l with
  | nil => intro a; rfl
  | cons x xs ih => intro a; simp [List.set, ih]

theorem mem_set_self (a : α) :
    ∀ (l : List α) (idx : ℕ), idx < l.length → a ∈ l.set idx a := by
  intro l
  induction l with
  | nil => intro idx h; simp at h
  | cons x xs ih =>
      intro idx h
      cases idx with
      | zero => simp [List.set]
      | succ n =>
          simp only [List.set]
          exact List.mem_cons_of_mem x (ih n (by simpa using h))

theorem find_append_of_none (p : α → Bool) (l₂ : List α) :
    ∀ l₁ : List α, (∀ x ∈ l₁, p x = false) →
      (l₁ ++ l₂).find? p = l₂.find? p := by
  intro l₁
  induction l₁ with
  | nil => intro _; rfl
  | cons x xs ih =>
      intro h
      have hx := h x (List.mem_cons_self x xs)
      simp only [List.cons_append, List.find?_cons, hx]
      exact ih (fun z hz => h z (List.mem_cons_of_mem x hz))

/-! ## C7 — totality of the numeric coercion -/

/-- C7, counterexample: the string `"Infinity"` is accepted by
`parseFloat`, so `safeParseFloat` returns `Infinity` — not a finite
number — refuting "for every input returns a finite number". -/
theorem safeParseFloat_infinity_counterexample :
    safeParseFloat (JsVal.str "Infinity") = JsNum.inf
    ∧ JsNum.inf.isFinite = false := by
  constructor
  · have h : parseFloatSym (commaToDot "Infinity") = ParseOut.infOut false := by decide
    simp [safeParseFloat, jsParseFloat, h, outToNum]
  · rfl

/-- C7 (amended): `safeParseFloat` is total; a number input is returned
as-is, `undefined`, `null` and the empty string yield `0`, strings using
`.` or `,` as decimal separator parse to their value (`"15,50"` gives
`15.5`), and unparseable input yields `0`; the result is finite for
every input except a non-finite number input or a string parsing to
`±Infinity`. -/
theorem safeParseFloat_total_amended (v : JsVal)
    (hnum : ∀ n, v = JsVal.num n → n.isFinite = true)
    (hstr : ∀ s, v = JsVal.str s → (parseFloatSym (commaToDot s)).isInf = false) :
    (safeParseFloat v).isFinite = true
    ∧ (∀ n, v = JsVal.num n → safeParseFloat v = n)
    ∧ safeParseFloat JsVal.undef = JsNum.num 0
    ∧ safeParseFloat JsVal.nullV = JsNum.num 0
    ∧ safeParseFloat (JsVal.str "") = JsNum.num 0
    ∧ safeParseFloat (JsVal.str "15,50") = JsNum.num (31 / 2)
    ∧ safeParseFloat (JsVal.str "15.50") = JsNum.num (31 / 2)
    ∧ safeParseFloat (JsVal.str "garbage") = JsNum.num 0 := by
  refine ⟨?_, ?_, rfl, rfl, by simp [safeParseFloat], ?_, ?_, ?_⟩
  · cases v with
    | num n =>
        have hn := hnum n rfl
        simpa [safeParseFloat] using hn
    | undef => rfl
    | nullV => rfl
    | str s =>
        by_cases hse : s = ""
        · subst hse
          simp [safeParseFloat, JsNum.isFinite]
        · have hinf := hstr s rfl
          simp only [safeParseFloat, hse, if_false, jsParseFloat]
          cases ho : parseFloatSym (commaToDot s) with
          | nanOut => simp [outToNum, JsNum.isFinite]
          | infOut b => rw [ho] at hinf; simp [ParseOut.isInf] at hinf
          | numOut neg m fl e => simp [outToNum, JsNum.isFinite]
  · intro n hn; subst hn; rfl
  · have h : parseFloatSym (commaToDot "15,50") = ParseOut.numOut false 1550 2 0 := by decide
    have hs : ("15,50" : String) = "" ↔ False := by simp
    simp only [safeParseFloat, jsParseFloat, h, outToNum, hs, if_false]
    norm_num
  · have h : parseFloatSym (commaToDot "15.50") = ParseOut.numOut false 1550 2 0 := by decide
    have hs : ("15.50" : String) = "" ↔ False := by simp
    simp only [safeParseFloat, jsParseFloat, h, outToNum, hs, if_false]
    norm_num
  · have h : parseFloatSym (commaToDot "garbage") = ParseOut.nanOut := by decide
    simp [safeParseFloat, jsParseFloat, h, outToNum]

/-- C7, witness: the amended theorem applied at the input `"15,50"`. -/
theorem safeParseFloat_total_amended_witness :
    (safeParseFloat (JsVal.str "15,50")).isFinite = true
    ∧ safeParseFloat (JsVal.str "15,50") = JsNum.num (31 / 2) := by
  have h := safeParseFloat_total_amended (JsVal.str "15,50")
    (fun n hn => by cases hn) (fun s hs => by cases hs; decide)
  exact ⟨h.1, h.2.2.2.2.2.1⟩

/-! ## C2 — suggested logistics cost -/

/-- C2: for every item list and price-per-kg, the suggested logistics
cost is `round2(weightCost + electronicsTax)` with `weightCost` the total
weight in kilograms (pounds divided by 2.20462, weighted by quantity)
times the rate, and `electronicsTax` the 20% surcharge on
`originalPrice - taxes - discounts` per unit over electronics items. -/
theorem calculateSuggestedLogistics_cost_spec (currentItems : List ProductItem) (priceKg : ℚ) :
    (calculateSuggestedLogistics currentItems priceKg).cost
      = round2
          ((currentItems.map (fun item =>
              (if item.weightUnit = WUnit.lb then item.weight / 2.20462 else item.weight)
                * item.quantity)).sum * priceKg
            + ((currentItems.filter (fun item => item.isElectronics)).map (fun item =>
                (item.originalPrice - item.taxes - item.discounts) * item.quantity * 0.20)).sum) := by
  simp only [calculateSuggestedLogistics]
  rw [foldl_add_eq_sum_map
        (fun item => (if item.weightUnit = WUnit.lb then item.weight / 2.20462 else item.weight)
          * item.quantity) currentItems 0,
      foldl_add_ite_eq_sum_filter (fun item => item.isElectronics)
        (fun item => (item.originalPrice - item.taxes - item.discounts) * item.quantity * 0.20)
        currentItems 0]
  norm_num

/-! ## C1 — grand-total invariant -/

theorem finalizeInvoice_invariant (j : Invoice) (t : String) :
    grandTotalInvariant (finalizeInvoice j t) := by
  simp only [grandTotalInvariant, finalizeInvoice]
  rw [foldl_add_eq_sum_map (fun item => item.finalPrice * item.quantity) j.items 0,
      foldl_add_eq_sum_map (fun item => item.commission * item.quantity) j.items 0]
  ring

/-- C1: the invoice `saveInvoice` stores satisfies
`grandTotalUsd = Σ finalPrice·quantity + logisticsCost + Σ commission·quantity`,
that stored invoice is a member of the post-save cache, and every invoice
returned by `getInvoices` satisfies the same equation. -/
theorem saveInvoice_grandTotal_invariant (invs : List Invoice) (invoice : Invoice)
    (now fresh : String) (st : State) :
    grandTotalInvariant (savedInvoice invs invoice now fresh)
    ∧ savedInvoice invs invoice now fresh ∈ saveInvoice invs invoice now fresh
    ∧ ∀ inv ∈ getInvoices st, grandTotalInvariant inv := by
  refine ⟨?_, ?_, ?_⟩
  · unfold savedInvoice
    cases h : findIndex (fun i => i.id == invoice.id) invs with
    | some idx => exact finalizeInvoice_invariant invoice now
    | none =>
        have hf := finalizeInvoice_invariant invoice now
        simpa [grandTotalInvariant] using hf
  · unfold savedInvoice saveInvoice
    cases h : findIndex (fun i => i.id == invoice.id) invs with
    | some idx => exact mem_set_self _ invs idx (findIndex_lt_length _ invs idx h)
    | none => simp
  · intro inv hmem
    simp only [getInvoices, List.mem_map] at hmem
    obtain ⟨j, hj, rfl⟩ := hmem
    simp only [grandTotalInvariant, reviveInvoice]
    rw [foldl_add_eq_sum_map (fun item => item.finalPrice * item.quantity) j.items 0,
        foldl_add_eq_sum_map (fun item => item.commission * item.quantity) j.items 0]
    ring

/-- C1, witness: the invariant at the concrete invoice `cInv` saved into
an empty cache, and at its revived view out of `cState`. -/
theorem saveInvoice_grandTotal_invariant_witness :
    grandTotalInvariant (savedInvoice [] cInv "t1" "g1")
    ∧ savedInvoice [] cInv "t1" "g1" ∈ saveInvoice [] cInv "t1" "g1"
    ∧ grandTotalInvariant (reviveInvoice cState.settings cInv) := by
  have h := saveInvoice_grandTotal_invariant [] cInv "t1" "g1" cState
  refine ⟨h.1, h.2.1, h.2.2 (reviveInvoice cState.settings cInv) ?_⟩
  simp [getInvoices, cState]

/-! ## C3 — status/amount forcing in `updateInvoiceStatus` -/

/-- C3: for an id present in the cache, `updateInvoiceStatus` replaces
the first matching invoice with a copy whose status is the new one,
whose `updatedAt` is refreshed, and whose `amountPaid` is forced to
`grandTotalUsd` for PAID/DELIVERED, to `0` for PENDING, and kept
unchanged for any other target status; all other entries are
untouched. -/
theorem updateInvoiceStatus_amount_coupling (invs : List Invoice) (id : String)
    (s : InvoiceStatus) (now : String)
    (h : ∃ inv ∈ invs, inv.id = id) :
    ∃ idx inv, findIndex (fun i => i.id == id) invs = some idx
      ∧ invs[idx]? = some inv
      ∧ updateInvoiceStatus invs id s now
          = invs.set idx
              { inv with
                status := s
                updatedAt := now
                amountPaid :=
                  if s = InvoiceStatus.paid ∨ s = InvoiceStatus.delivered then inv.grandTotalUsd
                  else if s = InvoiceStatus.pending then 0
                  else inv.amountPaid } := by
  obtain ⟨inv0, hmem, hid⟩ := h
  obtain ⟨idx, inv, hfind, hget, hp⟩ := findIndex_first_match (fun i => i.id == id) invs
    ⟨inv0, hmem, by simp [hid]⟩
  refine ⟨idx, inv, hfind, hget, ?_⟩
  simp only [updateInvoiceStatus, hfind, hget]

/-- C3, witness: updating `cInv` (stored grand total 62) to PAID forces
`amountPaid` to 62. -/
theorem updateInvoiceStatus_amount_coupling_witness :
    ∃ idx inv, findIndex (fun i => i.id == "inv1") [cInv] = some idx
      ∧ [cInv][idx]? = some inv
      ∧ updateInvoiceStatus [cInv] "inv1" InvoiceStatus.paid "t9"
          = [cInv].set idx
              { inv with
                status := InvoiceStatus.paid
                updatedAt := "t9"
                amountPaid :=
                  if InvoiceStatus.paid = InvoiceStatus.paid ∨
                      InvoiceStatus.paid = InvoiceStatus.delivered then inv.grandTotalUsd
                  else if InvoiceStatus.paid = InvoiceStatus.pending then 0
                  else inv.amountPaid } :=
  updateInvoiceStatus_amount_coupling [cInv] "inv1" InvoiceStatus.paid "t9"
    ⟨cInv, by simp, rfl⟩

/-! ## C8 — atomicity of `init()` -/

/-- C8: a failed `init` (network error or JSON-decode throw) leaves all
four collections and the settings exactly as they were and performs no
subscriber notification; a successful `init` replaces the whole cache
with the decoded remote body — independent of the previous state — and
notifies exactly once. -/
theorem init_atomic (st : State) (r : FetchResult) :
    (r = FetchResult.failure → init r st = (st, 0))
    ∧ ∀ d, r = FetchResult.success d → init r st = (decodeRemote d, 1) := by
  constructor
  · rintro rfl; rfl
  · rintro d rfl; rfl

/-- C8, witness: the theorem applied at the concrete state `cState`, for
a failure and for the concrete body `cRemote`. -/
theorem init_atomic_witness :
    init FetchResult.failure cState = (cState, 0)
    ∧ init (FetchResult.success cRemote) cState = (decodeRemote cRemote, 1) :=
  ⟨(init_atomic cState FetchResult.failure).1 rfl,
   (init_atomic cState (FetchResult.success cRemote)).2 cRemote rfl⟩

/-! ## C10 — a zero setting is read back as the default -/

/-- C10: whenever the stored `exchangeRate` coerces to `0` — in
particular right after `setExchangeRate 0` — `getExchangeRate` returns
the default `40.5`; likewise `getPricePerKg` returns `15.43`, so a rate
explicitly set to `0` can never be read back as `0`. -/
theorem settings_zero_reads_default (s : Settings)
    (hx : safeParseFloat s.exchangeRate = JsNum.num 0)
    (hp : safeParseFloat s.pricePerKg = JsNum.num 0) :
    getExchangeRate s = JsNum.num (81 / 2)
    ∧ getPricePerKg s = JsNum.num (1543 / 100)
    ∧ (∀ t : Settings, getExchangeRate (setExchangeRate t 0) = JsNum.num (81 / 2))
    ∧ (∀ t : Settings, getPricePerKg (setPricePerKg t 0) = JsNum.num (1543 / 100)) := by
  refine ⟨?_, ?_, ?_, ?_⟩
  · simp [getExchangeRate, hx, jsOr, JsNum.truthy]
  · simp [getPricePerKg, hp, jsOr, JsNum.truthy]
  · intro t
    simp [getExchangeRate, setExchangeRate, safeParseFloat, jsOr, JsNum.truthy]
  · intro t
    simp [getPricePerKg, setPricePerKg, safeParseFloat, jsOr, JsNum.truthy]

/-- C10, witness: the theorem applied at `sZero` (a `"0"` cell and a
blank cell). -/
theorem settings_zero_reads_default_witness :
    getExchangeRate sZero = JsNum.num (81 / 2)
    ∧ getPricePerKg sZero = JsNum.num (1543 / 100) := by
  have hx : safeParseFloat sZero.exchangeRate = JsNum.num 0 := by
    have h : parseFloatSym (commaToDot "0") = ParseOut.numOut false 0 0 0 := by decide
    simp [sZero, safeParseFloat, jsParseFloat, h, outToNum]
  have hp : safeParseFloat sZero.pricePerKg = JsNum.num 0 := by
    simp [sZero, safeParseFloat]
  have h := settings_zero_reads_default sZero hx hp
  exact ⟨h.1, h.2.1⟩

/-! ## C4 — auto-derivation of status from the paid amount -/

/-- C4, counterexample: with no items and no logistics cost the computed
grand total is `0`, the `currentGrandTotal > 0` guard fails, and entering
`0` leaves the status at PARTIAL instead of the claimed PENDING. -/
theorem handleAmountInput_zero_total_counterexample :
    (handleAmountInput xForm 0).status = InvoiceStatus.abonado
    ∧ InvoiceStatus.abonado ≠ InvoiceStatus.pending := by
  constructor
  · have hgt : formGrandTotal xForm = 0 := by
      simp [formGrandTotal, xForm]
      norm_num [round2]
    simp only [handleAmountInput, hgt]
    norm_num [xForm]
  · decide

/-- C4 (amended): while the status is not Draft AND the form's computed
grand total is positive, entering a new `amountPaid` stores the amount
and derives the status: `0` gives PENDING, a strictly partial amount
gives PARTIAL, and an amount at or above the total gives PAID unless the
current status is DELIVERED.  (With a non-positive grand total the
status is left unchanged.) -/
theorem handleAmountInput_derives_status (st : FormState) (amt : ℚ)
    (hnd : st.status ≠ InvoiceStatus.draft)
    (hgt : 0 < formGrandTotal st) :
    (handleAmountInput st amt).amountPaid = amt
    ∧ (amt = 0 → (handleAmountInput st amt).status = InvoiceStatus.pending)
    ∧ (0 < amt → amt < formGrandTotal st →
        (handleAmountInput st amt).status = InvoiceStatus.abonado)
    ∧ (formGrandTotal st ≤ amt → st.status ≠ InvoiceStatus.delivered →
        (handleAmountInput st amt).status = InvoiceStatus.paid) := by
  refine ⟨?_, ?_, ?_, ?_⟩
  · simp only [handleAmountInput, hnd, ne_eq, not_false_eq_true, if_true, hgt, gt_iff_lt]
    split_ifs <;> rfl
  · intro h0
    subst h0
    simp only [handleAmountInput, hnd, ne_eq, not_false_eq_true, if_true, hgt, gt_iff_lt]
    norm_num
  · intro h1 h2
    simp only [handleAmountInput, hnd, ne_eq, not_false_eq_true, if_true, hgt, gt_iff_lt]
    rw [if_pos ⟨h1, h2⟩]
  · intro hge hnotdel
    simp only [handleAmountInput, hnd, ne_eq, not_false_eq_true, if_true, hgt, gt_iff_lt]
    have hc1 : ¬ (amt > 0 ∧ amt < formGrandTotal st) := by
      rintro ⟨-, h⟩; linarith
    have hc2 : amt ≠ 0 := by
      intro h; rw [h] at hge; linarith
    rw [if_neg hc1, if_neg hc2, if_pos ⟨hge, hnotdel⟩]

/-- C4, witness: the amended theorem at the concrete form state `wForm`
(grand total 62) with the full amount entered. -/
theorem handleAmountInput_derives_status_witness :
    (handleAmountInput wForm 62).amountPaid = 62
    ∧ (handleAmountInput wForm 62).status = InvoiceStatus.paid := by
  have hgt : formGrandTotal wForm = 62 := by
    simp [formGrandTotal, wForm, cItem]
    norm_num [round2]
  have h := handleAmountInput_derives_status wForm 62 (by decide) (by rw [hgt]; norm_num)
  exact ⟨h.1, h.2.2.2 (by rw [hgt]) (by decide)⟩

/-! ## C5 — stickiness of the Delivered status under amount edits -/

/-- C5, counterexample: on a DELIVERED invoice with grand total 62,
entering the partial amount `5` demotes the status to PARTIAL — the
`status !== DELIVERED` guard only protects the PAID branch. -/
theorem delivered_demoted_counterexample :
    (handleAmountInput dForm 5).status = InvoiceStatus.abonado
    ∧ InvoiceStatus.abonado ≠ InvoiceStatus.delivered := by
  constructor
  · have hgt : formGrandTotal dForm = 62 := by
      simp [formGrandTotal, dForm, cItem]
      norm_num [round2]
    simp only [handleAmountInput, hgt]
    norm_num [dForm]
    simp
  · decide

/-- C5 (amended): on a DELIVERED invoice an amount edit keeps the
status DELIVERED only when the new amount is at least the grand total
(full or overpaid) or the grand total is non-positive; a zero amount
demotes to PENDING and a strictly partial amount demotes to PARTIAL. -/
theorem delivered_sticky_amended (st : FormState) (amt : ℚ)
    (hD : st.status = InvoiceStatus.delivered) :
    (formGrandTotal st ≤ amt ∨ formGrandTotal st ≤ 0 →
        (handleAmountInput st amt).status = InvoiceStatus.delivered)
    ∧ (0 < formGrandTotal st → amt = 0 →
        (handleAmountInput st amt).status = InvoiceStatus.pending)
    ∧ (0 < amt → amt < formGrandTotal st →
        (handleAmountInput st amt).status = InvoiceStatus.abonado) := by
  have hnd : st.status ≠ InvoiceStatus.draft := by rw [hD]; decide
  refine ⟨?_, ?_, ?_⟩
  · intro hc
    simp only [handleAmountInput, hnd, ne_eq, not_false_eq_true, if_true, gt_iff_lt]
    by_cases hpos : 0 < formGrandTotal st
    · have hge : formGrandTotal st ≤ amt := by
        rcases hc with h | h
        · exact h
        · linarith
      have hc1 : ¬ (amt > 0 ∧ amt < formGrandTotal st) := by
        rintro ⟨-, h⟩; linarith
      have hc2 : amt ≠ 0 := by
        intro h; rw [h] at hge; linarith
      have hc3 : ¬ (amt ≥ formGrandTotal st ∧ st.status ≠ InvoiceStatus.delivered) := by
        rintro ⟨-, h⟩; exact h hD
      rw [if_pos hpos, if_neg hc1, if_neg hc2, if_neg hc3]
      exact hD
    · rw [if_neg hpos]
      exact hD
  · intro hpos h0
    subst h0
    simp only [handleAmountInput, hnd, ne_eq, not_false_eq_true, if_true, gt_iff_lt]
    rw [if_pos hpos]
    norm_num
  · intro h1 h2
    have hpos : 0 < formGrandTotal st := lt_trans h1 h2
    simp only [handleAmountInput, hnd, ne_eq, not_false_eq_true, if_true, gt_iff_lt]
    rw [if_pos hpos, if_pos ⟨h1, h2⟩]

/-- C5, witness: the amended theorem at the concrete DELIVERED form
state `dForm`: the exact grand total keeps DELIVERED, zero demotes to
PENDING. -/
theorem delivered_sticky_amended_witness :
    (handleAmountInput dForm 62).status = InvoiceStatus.delivered
    ∧ (handleAmountInput dForm 0).status = InvoiceStatus.pending := by
  have hgt : formGrandTotal dForm = 62 := by
    simp [formGrandTotal, dForm, cItem]
    norm_num [round2]
  refine ⟨?_, ?_⟩
  · exact (delivered_sticky_amended dForm 62 rfl).1 (Or.inl (by rw [hgt]))
  · exact (delivered_sticky_amended dForm 0 rfl).2.1 (by rw [hgt]; norm_num) rfl

/-! ## C6 — realized-profit aggregation -/

theorem financiallyActive_ne_draft (s : InvoiceStatus) :
    financiallyActive s = true → s ≠ InvoiceStatus.draft := by
  cases s <;> simp [financiallyActive]

theorem dashStep_netProfit (acc : Stats) (inv : Invoice) :
    (dashStep acc inv).netProfit
      = acc.netProfit + (if financiallyActive inv.status then codeContribution inv else 0) := by
  by_cases ha : financiallyActive inv.status = true
  · have hd : ¬ inv.status = InvoiceStatus.draft := financiallyActive_ne_draft inv.status ha
    simp only [dashStep, hd, if_false, ha, if_true, codeContribution]
  · by_cases hd : inv.status = InvoiceStatus.draft
    · simp only [dashStep, hd, if_true]
      have hfa : financiallyActive InvoiceStatus.draft = false := rfl
      simp [hd, hfa]
    · have hfa : financiallyActive inv.status = false := by simpa using ha
      simp [dashStep, hd, hfa]

theorem dashFoldl_netProfit :
    ∀ (l : List Invoice) (acc : Stats),
      (l.foldl dashStep acc).netProfit
        = acc.netProfit
          + ((l.filter (fun i => financiallyActive i.status)).map codeContribution).sum := by
  intro l
  induction l with
  | nil => intro acc; simp
  | cons x xs ih =>
      intro acc
      by_cases ha : financiallyActive x.status = true
      · simp only [List.foldl_cons, ih, dashStep_netProfit, ha, if_true,
          List.filter_cons, List.map_cons, List.sum_cons]
        ring
      · have ha2 : financiallyActive x.status = false := by
          simpa using ha
        simp only [List.foldl_cons, ih, dashStep_netProfit, ha2, Bool.false_eq_true,
          if_false, List.filter_cons]
        simp [ha2]

theorem codeContribution_eq (inv : Invoice) :
    codeContribution inv = claimContribution inv := by
  simp only [codeContribution, claimContribution, theoreticalProfitSpec]
  rw [foldl_add_eq_sum_map
    (fun item => ((item.finalPrice - item.originalPrice) + item.commission) * item.quantity)
    inv.items 0]
  by_cases h : inv.grandTotalUsd > 0
  · rw [if_pos h, if_pos h]
    ring
  · rw [if_neg h, if_neg h]
    simp

/-- C6, counterexample: the claim's unguarded formula
`theoreticalProfit * min(1, amountPaid / grandTotalUsd)` disagrees with
the dashboard on an invoice with a negative stored grand total: the code
contributes `0` (its `grandTotal > 0` guard fails) while the formula
yields `-25`. -/
theorem dashboard_unclamped_counterexample :
    (dashboardStats [negTotalInv]).netProfit = 0
    ∧ theoreticalProfitSpec negTotalInv
        * min 1 (negTotalInv.amountPaid / negTotalInv.grandTotalUsd) = -25
    ∧ (0 : ℚ) ≠ -25 := by
  refine ⟨?_, ?_, by norm_num⟩
  · rw [dashboardStats, dashFoldl_netProfit]
    have hc : codeContribution negTotalInv = 0 := by
      simp [codeContribution, negTotalInv, halfPaidInv]
      norm_num
    have hfa : financiallyActive negTotalInv.status = true := rfl
    simp [List.filter_cons, hfa, hc]
  · simp [theoreticalProfitSpec, negTotalInv, halfPaidInv, profitItem]
    norm_num [min_def]

/-- C6 (amended): the dashboard's realized net profit sums, over exactly
the invoices whose status is PARTIAL, PAID or DELIVERED, the
contribution `theoreticalProfit * min(1, amountPaid / grandTotalUsd)`
guarded by `grandTotalUsd > 0` (a non-positive grand total contributes
`0`); in particular the invoice with theoretical profit 100, grand total
200 and 50 paid contributes 25, and the same invoice overpaid at 300
contributes the clamped 100, not 150. -/
theorem dashboard_netProfit_clamped (invs : List Invoice) :
    (dashboardStats invs).netProfit
      = ((invs.filter (fun i => financiallyActive i.status)).map claimContribution).sum
    ∧ (dashboardStats [halfPaidInv]).netProfit = 25
    ∧ (dashboardStats [overPaidInv]).netProfit = 100 := by
  have hfun : codeContribution = claimContribution := funext codeContribution_eq
  refine ⟨?_, ?_, ?_⟩
  · rw [dashboardStats, dashFoldl_netProfit, hfun]
    simp
  · rw [dashboardStats, dashFoldl_netProfit]
    have hc : codeContribution halfPaidInv = 25 := by
      simp [codeContribution, halfPaidInv, profitItem]
      norm_num [min_def]
    have hfa : financiallyActive halfPaidInv.status = true := rfl
    simp [List.filter_cons, hfa, hc]
  · rw [dashboardStats, dashFoldl_netProfit]
    have hc : codeContribution overPaidInv = 100 := by
      simp [codeContribution, overPaidInv, halfPaidInv, profitItem]
      norm_num [min_def]
    have hfa : financiallyActive overPaidInv.status = true := rfl
    simp [List.filter_cons, hfa, hc]

/-! ## C9 — upsert semantics of `saveInvoice` -/

/-- C9, counterexample: saving an invoice with the fresh non-empty id
`"a"` into an empty cache does not assign the generated id `"gen1"` —
the given id is kept (`generateId` is only used when the id is falsy) —
and a second save of the same object reverts `createdAt` from the first
save's timestamp `"t1"` back to the object's own `"c0"`, so more than
`updatedAt` differs between the two stored versions. -/
theorem saveInvoice_generated_id_counterexample :
    (saveInvoice [] cInv9 "t1" "gen1").map Invoice.id = ["a"]
    ∧ ("a" : String) ≠ "gen1"
    ∧ (saveInvoice [] cInv9 "t1" "gen1").map Invoice.createdAt = ["t1"]
    ∧ (saveInvoice (saveInvoice [] cInv9 "t1" "gen1") cInv9 "t2" "gen2").map
        Invoice.createdAt = ["c0"]
    ∧ ("t1" : String) ≠ "c0" := by
  refine ⟨?_, by decide, ?_, ?_, by decide⟩
  · simp [saveInvoice, findIndex, finalizeInvoice, cInv9]
  · simp [saveInvoice, findIndex, finalizeInvoice, cInv9]
  · simp [saveInvoice, findIndex, finalizeInvoice, cInv9]

/-- C9 (amended): `saveInvoice` is an upsert by id — if the id matches
an existing invoice the stored entity is wholly replaced; otherwise the
invoice is appended keeping its own non-empty id (a generated id is used
only when the id is empty), with `createdAt` set to the save time.
Hence saving the same invoice object (fresh non-empty id) twice in a row
appends once and then replaces: the length is unchanged after the second
save, the entity remains retrievable by the same id, and the stored
versions differ only in `updatedAt` and `createdAt` (the second save
writes the object's own `createdAt` back over the first save's
timestamp). -/
theorem saveInvoice_upsert_amended (invs : List Invoice) (invoice : Invoice)
    (t1 t2 f1 f2 : String)
    (hid : invoice.id ≠ "")
    (hfree : ∀ i ∈ invs, i.id ≠ invoice.id) :
    saveInvoice invs invoice t1 f1
        = invs ++ [{ finalizeInvoice invoice t1 with createdAt := t1 }]
    ∧ (saveInvoice invs invoice t1 f1).length = invs.length + 1
    ∧ saveInvoice (saveInvoice invs invoice t1 f1) invoice t2 f2
        = invs ++ [{ finalizeInvoice invoice t1 with updatedAt := t2 }]
    ∧ (saveInvoice (saveInvoice invs invoice t1 f1) invoice t2 f2).length
        = (saveInvoice invs invoice t1 f1).length
    ∧ (saveInvoice (saveInvoice invs invoice t1 f1) invoice t2 f2).find?
          (fun i => i.id == invoice.id)
        = some { finalizeInvoice invoice t1 with updatedAt := t2 } := by
  have hp : ∀ i ∈ invs, ((fun i : Invoice => i.id == invoice.id) i) = false := by
    intro i hi
    simp only [beq_eq_false_iff_ne, ne_eq]
    exact hfree i hi
  have hnone : findIndex (fun i => i.id == invoice.id) invs = none :=
    findIndex_eq_none _ invs hp
  have hidb : (invoice.id == "") = false := by
    simp only [beq_eq_false_iff_ne, ne_eq]
    exact hid
  have hfin12 : finalizeInvoice invoice t2
      = { finalizeInvoice invoice t1 with updatedAt := t2 } := rfl
  have hidfin : (finalizeInvoice invoice t1).id = invoice.id := rfl
  have h1 : saveInvoice invs invoice t1 f1
      = invs ++ [{ finalizeInvoice invoice t1 with createdAt := t1 }] := by
    simp only [saveInvoice, hnone, hidb, Bool.false_eq_true, if_false, hidfin]
  have hpe : ((fun i : Invoice => i.id == invoice.id)
      { finalizeInvoice invoice t1 with createdAt := t1 }) = true := by
    simp [finalizeInvoice]
  have hfind2 : findIndex (fun i => i.id == invoice.id)
      (invs ++ [{ finalizeInvoice invoice t1 with createdAt := t1 }]) = some invs.length :=
    findIndex_append_first (fun i : Invoice => i.id == invoice.id)
      { finalizeInvoice invoice t1 with createdAt := t1 } [] invs hp hpe
  have h2 : saveInvoice (saveInvoice invs invoice t1 f1) invoice t2 f2
      = invs ++ [{ finalizeInvoice invoice t1 with updatedAt := t2 }] := by
    rw [h1]
    simp only [saveInvoice, hfind2]
    rw [set_append_singleton, ← hfin12]
  have hpe2 : ((fun i : Invoice => i.id == invoice.id)
      { finalizeInvoice invoice t1 with updatedAt := t2 }) = true := by
    simp [finalizeInvoice]
  refine ⟨h1, by rw [h1]; simp, h2, by rw [h2, h1]; simp, ?_⟩
  rw [h2, find_append_of_none _ _ invs hp]
  simp [hpe2]

/-- C9, witness: the amended theorem applied to the concrete invoice
`cInv` saved twice into an empty cache. -/
theorem saveInvoice_upsert_amended_witness :
    saveInvoice [] cInv "t1" "g1"
        = [{ finalizeInvoice cInv "t1" with createdAt := "t1" }]
    ∧ (saveInvoice [] cInv "t1" "g1").length = 1
    ∧ saveInvoice (saveInvoice [] cInv "t1" "g1") cInv "t2" "g2"
        = [{ finalizeInvoice cInv "t1" with updatedAt := "t2" }]
    ∧ (saveInvoice (saveInvoice [] cInv "t1" "g1") cInv "t2" "g2").find?
          (fun i => i.id == cInv.id)
        = some { finalizeInvoice cInv "t1" with updatedAt := "t2" } := by
  have h := saveInvoice_upsert_amended [] cInv "t1" "t2" "g1" "g2" (by decide)
    (by intro i hi; cases hi)
  exact ⟨by simpa using h.1, by simpa using h.2.1, by simpa using h.2.2.1,
    by simpa using h.2.2.2.2⟩
